import Mathlib

/-!
Verification of the row-level access-control core of the repository:
the `django_group_access` package (models.py, __init__.py, registration.py,
middleware.py).  The data model and the operations are shallowly embedded:
records, access groups and users become Lean structures, querysets become a
structure holding the record list the query would return together with the
access-control attributes the library attaches to the Python object
(`_access_control_meta`, `_access_control_filtering`,
`_access_has_been_filtered`), and every operation is a pure function that
mirrors the source line by line.  A second, heap-based model
(namespace `RefHeap`) embeds the Python object/reference semantics of
`wrap_query_set_clone`, `unrestricted` and `accessible_by_user`, which is
needed for the claims about aliasing and object identity.
-/

namespace DjangoGroupAccess

/-- A user, as seen by the library: `user.is_authenticated()`,
`user.is_superuser` (consulted by the built-in unrestricted-access hook
`registration._is_superuser`) and a primary key used for equality in
`owner=user` and membership lookups. -/
structure User where
  pk : Nat
  is_authenticated : Bool
  is_superuser : Bool
deriving DecidableEq, Repr

/-- An access group (models.py `AccessGroup`): the fields consulted by the
rule evaluator are `members` (m2m to users, looked up via
`group_model.objects.filter(members=user)`) and the `supergroup` flag.
The default group model has a `members` field and no `user_set` attribute,
so the group lookup dict built in `_get_accessible_by_user_filter_rules`
is `{'members': user}`. -/
structure AccessGroup where
  pk : Nat
  members : List Nat
  supergroup : Bool
deriving DecidableEq, Repr

/-- A record of the control-relation target model, for entity types
registered with `control_relation`: it carries the `owner` and
`access_groups` that govern visibility of the delegating record. -/
structure RelRec where
  pk : Nat
  owner : Option Nat
  access_groups : List Nat
deriving DecidableEq, Repr

/-- A record of a registered entity type.  For directly controlled types the
`owner` and `access_groups` fields are consulted; for delegated types
(`access_control_relation` present) only `related` is consulted: it is the
record at the end of the control relation, or `none` when the relation is
null.  (Embedding the related record in place of a foreign key is faithful
because the rule evaluator only ever dereferences the relation.) -/
structure Rec where
  pk : Nat
  owner : Option Nat
  access_groups : List Nat
  related : Option RelRec
deriving DecidableEq, Repr

/-- The two process-wide boolean settings consulted by the filtering code:
`DGA_UNSHARED_RECORDS_ARE_PUBLIC` (default `False`) and
`DGA_NO_RELATED_RECORD_VISIBILITY` (default `True`). -/
structure Settings where
  unshared_records_are_public : Bool
  no_related_record_visibility : Bool
deriving DecidableEq, Repr

/-- The registration state of an entity type (registration.py `register`):
whether it is registered, whether it is auto-filtered, whether the model has
an `owner` field, whether it has an `access_control_relation` (delegated
visibility), whether the control-relation target model has an `owner`
field, and the extra unrestricted-access hooks registered for the model
that the hook check resolves to (for delegated types the hooks of the
control-relation target model; the built-in `_is_superuser` hook is always
prepended by `register` and is kept separate here). -/
structure ModelCfg where
  is_registered : Bool
  auto_filter : Bool
  has_control_relation : Bool
  has_owner : Bool
  related_has_owner : Bool
  hooks : List (User → Bool)

/-- The `_access_control_meta` dict attached to querysets:
`{'user': ..., 'unrestricted': ...}`. -/
structure AccessControlMeta where
  user : Option User
  unrestricted : Bool
deriving DecidableEq, Repr

/-- A queryset: the records its existing conditions would return (`base`),
the model registration it queries, and the three access-control attributes
the library reads or writes on the Python object.  A queryset fresh from
the manager has no metadata and both flags unset. -/
structure QuerySet where
  cfg : ModelCfg
  base : List Rec
  meta : Option AccessControlMeta
  filtering : Bool
  has_been_filtered : Bool

/-- A Django `Q` condition over records of the model.  `none` is the empty
`models.Q()`: it is falsy for `Q._combine` (so it disappears when or-ed
with another condition) and it matches every record when used as a
filter. -/
abbrev QCond := Option (Rec → Bool)

/-- The empty `models.Q()`. -/
def qEmpty : QCond := none

/-- A one-clause `models.Q(...)` condition. -/
def qPred (p : Rec → Bool) : QCond := some p

/-- The `|` combination of two Q conditions, with Django semantics: an
empty Q is dropped by `Q._combine` (`if not other: return self` and
`if not self: return other`). -/
def qOr : QCond → QCond → QCond
  | none, b => b
  | some f, none => some f
  | some f, some g => some (fun r => f r || g r)

/-- Whether a record matches a Q condition; the empty Q matches
everything. -/
def qMatches : QCond → Rec → Bool
  | none, _ => true
  | some f, r => f r

/-- The built-in unrestricted-access hook: registration.py
`_is_superuser`. -/
def is_superuser_hook (u : User) : Bool := u.is_superuser

/-- The groups the user belongs to:
`group_model.objects.filter(members=user)`. -/
def userGroups (db : List AccessGroup) (u : User) : List AccessGroup :=
  db.filter (fun g => g.members.contains u.pk)

/-- The supergroup short-circuit of the rule evaluator:
`group_model.objects.filter(members=user).filter(supergroup=True).count()`
is nonzero. -/
def supergroupHit (db : List AccessGroup) (u : User) : Bool :=
  ((userGroups db u).filter (fun g => g.supergroup)).length != 0

/-- Whether a record matches the hook and supergroup short-circuits of the
rule evaluator (models.py lines 132-145): the user is authenticated and
either some unrestricted-access hook (the built-in `_is_superuser` first,
then the registered extras for the resolved model) returns true, or the
user belongs to a supergroup. -/
def privilegedHit (cfg : ModelCfg) (db : List AccessGroup) (u : User) : Bool :=
  u.is_authenticated &&
    ((is_superuser_hook :: cfg.hooks).any (fun f => f u) || supergroupHit db u)

/-- Embedding of the ORM lookup
`Q(<relation>__access_groups__isnull=True)`: the `isnull` lookup promotes
the joins along the relation to LEFT OUTER joins, so a record whose
relation is null also matches (its joined access-group column is NULL),
as does a record whose related record has no access groups. -/
def relatedAccessGroupsIsNull (r : Rec) : Bool :=
  match r.related with
  | none => true
  | some c => c.access_groups.isEmpty

/-- Whether the record at the end of the control relation belongs to a
group the user is in: the `Q(<relation>__pk__in=...)` clause, where the
subquery is
`access_relation_model.objects.filter(access_groups__in=<user groups>)`.
A null relation matches nothing (plain inner lookup). -/
def relatedInUserGroups (db : List AccessGroup) (u : User) (r : Rec) : Bool :=
  match r.related with
  | none => false
  | some c => c.access_groups.any (fun gid => (userGroups db u).any (fun g => g.pk == gid))

/-- Embedding of `QuerySetMixin._get_accessible_by_user_filter_rules`
(models.py lines 117-186), branch by branch:
hook / supergroup short-circuits returning the empty `Q()` first, then the
delegated (`access_control_relation`) rules, else the direct rules. -/
def get_accessible_by_user_filter_rules
    (cfg : ModelCfg) (st : Settings) (db : List AccessGroup) (u : User) : QCond :=
  if privilegedHit cfg db u then
    qEmpty
  else if cfg.has_control_relation then
    -- access control is managed by a related record
    let rules0 : QCond := qEmpty
    let rules1 : QCond :=
      if u.is_authenticated then
        let rulesOwner : QCond :=
          if cfg.related_has_owner then
            -- direct owner of the control relation
            qOr rules0 (qPred (fun r =>
              match r.related with
              | none => false
              | some c => c.owner == some u.pk))
          else rules0
        -- in access groups the user is in
        qOr rulesOwner (qPred (relatedInUserGroups db u))
      else rules0
    let rules2 : QCond :=
      if st.no_related_record_visibility then
        -- related records do not exist, so main records are visible
        qOr rules1 (qPred (fun r => r.related.isNone))
      else rules1
    if st.unshared_records_are_public then
      -- or related records not shared, and public mode is on
      qOr rules2 (qPred relatedAccessGroupsIsNull)
    else rules2
  else
    -- access controls are directly on the record
    if u.is_authenticated then
      -- either the record is in the user's access groups, or
      -- directly owned by the user
      let rules0 : QCond := qPred (fun r =>
        r.access_groups.any (fun gid => (userGroups db u).any (fun g => g.pk == gid)))
      let rules1 : QCond :=
        if cfg.has_owner then qOr rules0 (qPred (fun r => r.owner == some u.pk))
        else rules0
      if st.unshared_records_are_public then
        qOr rules1 (qPred (fun r => r.access_groups.isEmpty))
      else rules1
    else
      -- records that are not in any access group
      qPred (fun r => r.access_groups.isEmpty)

/-- The user the filtering step determines (models.py lines 199-203):
the metadata user when metadata is present, else the ambient middleware
user when the model is auto-filtered, else none. -/
def access_control_user (amb : Option User) (qs : QuerySet) : Option User :=
  match qs.meta with
  | some m => m.user
  | none => if qs.cfg.auto_filter then amb else none

/-- The combined filter step
`self.filter(pk__in=self.filter(rules).distinct())` (models.py lines
218-219): keep the records of the queryset whose primary key occurs among
the primary keys of the records matching the rules.  (`.distinct()` only
removes duplicate keys, which does not change membership in the `pk__in`
set.) -/
def applyRules (base : List Rec) (q : QCond) : List Rec :=
  let matching := (base.filter (fun r => qMatches q r)).map Rec.pk
  base.filter (fun r => matching.contains r.pk)

/-- The empty queryset `self.model.objects.none()`: a fresh queryset of
the same model with no records, no metadata and no flags. -/
def noneQuerySet (cfg : ModelCfg) : QuerySet :=
  { cfg := cfg, base := [], meta := none, filtering := false, has_been_filtered := false }

/-- Embedding of `QuerySetMixin._filter_for_access_control` (models.py
lines 188-223).  Returns the queryset the caller should run, paired with a
flag telling whether it is a new object (the `objects.none()` result or the
filtered clone) or the receiver itself returned unchanged.  In the
filtering branch the receiver's `_access_control_filtering` attribute is
set before the clone is taken (so the clone inherits it, stopping nested
filtering) and reset afterwards, leaving the receiver as it was. -/
def filter_for_access_control
    (st : Settings) (amb : Option User) (db : List AccessGroup)
    (qs : QuerySet) : QuerySet × Bool :=
  if !qs.cfg.is_registered then (qs, false)
  else if qs.filtering then (qs, false)
  else
    match access_control_user amb qs with
    | none => (qs, false)
    | some u =>
      if !u.is_authenticated && !st.unshared_records_are_public then
        (noneQuerySet qs.cfg, true)
      else
        -- this stops any further filtering while the filtering rules
        -- are applied
        let self1 : QuerySet := { qs with filtering := true }
        let rules := get_accessible_by_user_filter_rules qs.cfg st db u
        -- the clone produced by self.filter(...) copies the metadata and
        -- the currently-filtering flag (wrap_query_set_clone) but starts
        -- with a fresh has-been-filtered attribute
        let filtered : QuerySet :=
          { self1 with base := applyRules self1.base rules, has_been_filtered := false }
        (filtered, true)

/-- Embedding of the `db_wrapper` closure produced by `wrap_db_method`
(package __init__.py lines 32-76) for a plain (non-subquery) queryset.
`in_unique_stack` tells whether `_perform_unique_checks` occurs on the call
stack.  Returns the record list the wrapped database operation executes
over, paired with the receiver's state after the call: the
`_access_has_been_filtered` attribute is set on the queryset the operation
runs on, which is the receiver itself exactly when
`_filter_for_access_control` returned the receiver unchanged. -/
def db_wrapper
    (used_in_unique_check in_unique_stack : Bool)
    (st : Settings) (amb : Option User) (db : List AccessGroup)
    (qs : QuerySet) : List Rec × QuerySet :=
  let apply1 := if used_in_unique_check then !in_unique_stack else true
  if apply1 && !qs.has_been_filtered then
    match filter_for_access_control st amb db qs with
    | (q, true) => (({ q with has_been_filtered := true } : QuerySet).base, qs)
    | (q, false) =>
      (({ q with has_been_filtered := true } : QuerySet).base,
       { q with has_been_filtered := true })
  else (qs.base, qs)

/-- The `exists` operation, the one database method wrapped with
`used_in_unique_check=True` (package __init__.py lines 91-93). -/
def existsCheck
    (in_unique_stack : Bool)
    (st : Settings) (amb : Option User) (db : List AccessGroup)
    (qs : QuerySet) : List Rec × QuerySet :=
  db_wrapper true in_unique_stack st amb db qs

/-- The records a record-producing operation outside any uniqueness check
(iterate, count, get, ...) executes over. -/
def materialize
    (st : Settings) (amb : Option User) (db : List AccessGroup)
    (qs : QuerySet) : List Rec :=
  (db_wrapper false false st amb db qs).1

/-- Embedding of `QuerySetMixin.unrestricted` (models.py lines 75-86): a
clone (which copies the metadata and the currently-filtering flag but not
the has-been-filtered attribute) whose metadata dict is copied and then
set to `user = None`, `unrestricted = True`. -/
def unrestricted (qs : QuerySet) : QuerySet :=
  { qs with
    meta := some { user := none, unrestricted := true },
    has_been_filtered := false }

/-- Embedding of `QuerySetMixin.accessible_by_user` (models.py lines
225-231): the receiver itself with its metadata set to
`{'user': user, 'unrestricted': False}`.  No clone is taken and nothing
executes; the value-level effect on the receiver is this record update. -/
def accessible_by_user (qs : QuerySet) (u : User) : QuerySet :=
  { qs with meta := some { user := some u, unrestricted := false } }

end DjangoGroupAccess

namespace RefHeap

/-!
A second model at the level of Python objects and references, embedding
`wrap_query_set_clone` (package __init__.py lines 145-162),
`QuerySetMixin.unrestricted` and `QuerySetMixin.accessible_by_user` with
explicit heap cells, so that sharing of the `_access_control_meta` dict
between a queryset and its clone, and object identity of the value an
operation returns, can be stated.
-/

/-- The `_access_control_meta` dict as a heap cell; the user is identified
by primary key here since only the stored reference matters. -/
structure MetaDict where
  user : Option Nat
  unrestricted : Bool
deriving DecidableEq, Repr

/-- A queryset object: a possibly-absent reference to a metadata dict cell,
and its two boolean attributes (Python bools are immutable, so they need no
cells). -/
structure PyQuerySet where
  meta_ref : Option Nat
  filtering : Bool
  has_been_filtered : Bool
deriving DecidableEq, Repr

/-- The heap: metadata dict cells and queryset objects, addressed by
allocation counters. -/
structure Heap where
  metaCells : List (Nat × MetaDict)
  qsObjs : List (Nat × PyQuerySet)
  nextMeta : Nat
  nextQS : Nat
deriving Repr

/-- Association-list lookup; updates are modelled by prepending, so the
first hit is the current value. -/
def assoc {α : Type} : List (Nat × α) → Nat → Option α
  | [], _ => none
  | (k, v) :: rest, n => if k = n then some v else assoc rest n

/-- Dereference a queryset object id. -/
def Heap.getQS (h : Heap) (i : Nat) : Option PyQuerySet :=
  assoc h.qsObjs i

/-- Overwrite the queryset object at an id. -/
def Heap.setQS (h : Heap) (i : Nat) (q : PyQuerySet) : Heap :=
  { h with qsObjs := (i, q) :: h.qsObjs }

/-- The metadata a queryset observes: its `_access_control_meta` reference
dereferenced. -/
def Heap.readMeta (h : Heap) (i : Nat) : Option MetaDict :=
  match h.getQS i with
  | none => none
  | some qs =>
    match qs.meta_ref with
    | none => none
    | some r => assoc h.metaCells r

/-- Allocate a fresh metadata dict cell. -/
def allocMeta (h : Heap) (m : MetaDict) : Heap × Nat :=
  ({ h with metaCells := (h.nextMeta, m) :: h.metaCells, nextMeta := h.nextMeta + 1 },
   h.nextMeta)

/-- Embedding of `QuerySet._clone` as wrapped by `wrap_query_set_clone`:
a fresh queryset object whose `_access_control_meta` is the same reference
as the receiver's (`clone._access_control_meta = self._access_control_meta`)
and whose `_access_control_filtering` is copied; the base `_clone` builds a
new object and the wrapper does not copy `_access_has_been_filtered`, so
the clone starts without it. -/
def cloneQS (h : Heap) (i : Nat) : Heap × Nat :=
  match h.getQS i with
  | none => (h, i)
  | some qs =>
    let fresh : PyQuerySet :=
      { meta_ref := qs.meta_ref, filtering := qs.filtering, has_been_filtered := false }
    ({ h with qsObjs := (h.nextQS, fresh) :: h.qsObjs, nextQS := h.nextQS + 1 },
     h.nextQS)

/-- Embedding of `QuerySetMixin.unrestricted` at the object level: clone,
copy the metadata dict (`.copy()` allocates a fresh dict), set
`user = None` and `unrestricted = True` on the fresh dict, attach it to the
clone, return the clone. -/
def unrestrictedRef (h : Heap) (i : Nat) : Heap × Nat :=
  match Heap.getQS (cloneQS h i).1 (cloneQS h i).2 with
  | none => cloneQS h i
  | some cqs =>
    ((allocMeta (cloneQS h i).1 { user := none, unrestricted := true }).1.setQS
        (cloneQS h i).2
        { cqs with
          meta_ref :=
            some (allocMeta (cloneQS h i).1 { user := none, unrestricted := true }).2 },
     (cloneQS h i).2)

/-- Embedding of `QuerySetMixin.accessible_by_user` at the object level:
assign a fresh dict `{'user': user, 'unrestricted': False}` to the
receiver's `_access_control_meta` and return the receiver itself. -/
def accessibleByUserRef (h : Heap) (i : Nat) (uid : Nat) : Heap × Nat :=
  match h.getQS i with
  | none => (h, i)
  | some qs =>
    ((allocMeta h { user := some uid, unrestricted := false }).1.setQS i
       { qs with
         meta_ref := some (allocMeta h { user := some uid, unrestricted := false }).2 },
     i)

/-- An in-place mutation of the metadata dict a queryset references
(`qs._access_control_meta['user'] = uid`): the cell is overwritten, so the
change is observed through every queryset holding the same reference. -/
def setMetaUser (h : Heap) (i : Nat) (uid : Option Nat) : Heap :=
  match h.getQS i with
  | none => h
  | some qs =>
    match qs.meta_ref with
    | none => h
    | some r =>
      match assoc h.metaCells r with
      | none => h
      | some m => { h with metaCells := (r, { m with user := uid }) :: h.metaCells }

/-- Well-formedness of a heap: every allocated id is below its counter and
every metadata reference points below the metadata counter, so fresh
allocations never collide with live cells. -/
structure Heap.WF (h : Heap) : Prop where
  qs_lt : ∀ p ∈ h.qsObjs, p.1 < h.nextQS
  meta_lt : ∀ p ∈ h.metaCells, p.1 < h.nextMeta
  ref_lt : ∀ p ∈ h.qsObjs, ∀ r, p.2.meta_ref = some r → r < h.nextMeta

end RefHeap

namespace DjangoGroupAccess

/-- Concrete inputs used by witness and counterexample theorems. -/
def sampleSuperuser : User :=
  { pk := 9, is_authenticated := true, is_superuser := true }

def sampleAlice : User :=
  { pk := 1, is_authenticated := true, is_superuser := false }

def sampleBob : User :=
  { pk := 2, is_authenticated := true, is_superuser := false }

def sampleAnon : User :=
  { pk := 0, is_authenticated := false, is_superuser := false }

def sampleGroup : AccessGroup :=
  { pk := 5, members := [1], supergroup := false }

def sampleDb : List AccessGroup := [sampleGroup]

def sampleCfgDirect : ModelCfg :=
  { is_registered := true, auto_filter := true, has_control_relation := false,
    has_owner := true, related_has_owner := false, hooks := [] }

def sampleCfgDelegated : ModelCfg :=
  { is_registered := true, auto_filter := true, has_control_relation := true,
    has_owner := false, related_has_owner := true, hooks := [] }

def sampleRecShared : Rec :=
  { pk := 10, owner := some 2, access_groups := [5], related := none }

def sampleRecUnshared : Rec :=
  { pk := 11, owner := some 2, access_groups := [], related := none }

def sampleRecNullRel : Rec :=
  { pk := 20, owner := none, access_groups := [], related := none }

def sampleQSDirect : QuerySet :=
  { cfg := sampleCfgDirect, base := [sampleRecShared, sampleRecUnshared],
    meta := none, filtering := false, has_been_filtered := false }

def sampleQSDelegated : QuerySet :=
  { cfg := sampleCfgDelegated, base := [sampleRecNullRel],
    meta := none, filtering := false, has_been_filtered := false }

def sampleQSMarked : QuerySet :=
  { cfg := sampleCfgDirect, base := [sampleRecShared],
    meta := none, filtering := false, has_been_filtered := true }

/-- A settings value with both flags at their defaults
(`DGA_UNSHARED_RECORDS_ARE_PUBLIC` off,
`DGA_NO_RELATED_RECORD_VISIBILITY` on). -/
def stDefaults : Settings :=
  { unshared_records_are_public := false, no_related_record_visibility := true }

def stPublicOn : Settings :=
  { unshared_records_are_public := true, no_related_record_visibility := true }

def stPublicOnNoRelOff : Settings :=
  { unshared_records_are_public := true, no_related_record_visibility := false }

/-- A concrete heap for the reference-model counterexamples: one queryset
object (id 0) marked as already filtered, referencing one metadata dict
cell (id 0). -/
def cexHeap0 : RefHeap.Heap :=
  { metaCells := [(0, { user := some 7, unrestricted := false })],
    qsObjs := [(0, { meta_ref := some 0, filtering := false, has_been_filtered := true })],
    nextMeta := 1, nextQS := 1 }

end DjangoGroupAccess

namespace RefHeap

theorem assoc_cons_self {α : Type} (k : Nat) (v : α) (l : List (Nat × α)) :
    assoc ((k, v) :: l) k = some v := by
  simp [assoc]

theorem assoc_cons_ne {α : Type} {k n : Nat} (v : α) (l : List (Nat × α)) (h : k ≠ n) :
    assoc ((k, v) :: l) n = assoc l n := by
  simp [assoc, h]

theorem mem_of_assoc_eq_some {α : Type} {l : List (Nat × α)} {n : Nat} {v : α}
    (h : assoc l n = some v) : (n, v) ∈ l := by
  induction l with
  | nil => simp [assoc] at h
  | cons p rest ih =>
    rcases p with ⟨k, w⟩
    by_cases hk : k = n
    · subst hk
      rw [assoc_cons_self] at h
      cases h
      exact List.mem_cons_self _ _
    · rw [assoc_cons_ne w rest hk] at h
      exact List.mem_cons_of_mem _ (ih h)

theorem getQS_lt {h : Heap} {i : Nat} {q : PyQuerySet}
    (hwf : h.WF) (hget : h.getQS i = some q) : i < h.nextQS :=
  hwf.qs_lt _ (mem_of_assoc_eq_some hget)

theorem getQS_ref_lt {h : Heap} {i : Nat} {q : PyQuerySet} {r : Nat}
    (hwf : h.WF) (hget : h.getQS i = some q) (hr : q.meta_ref = some r) :
    r < h.nextMeta :=
  hwf.ref_lt _ (mem_of_assoc_eq_some hget) r hr

theorem cloneQS_eq {h : Heap} {i : Nat} {q : PyQuerySet} (hget : h.getQS i = some q) :
    cloneQS h i =
      ({ h with
         qsObjs := (h.nextQS,
           { meta_ref := q.meta_ref, filtering := q.filtering,
             has_been_filtered := false }) :: h.qsObjs,
         nextQS := h.nextQS + 1 }, h.nextQS) := by
  unfold cloneQS
  rw [hget]

theorem cloneQS_none {h : Heap} {i : Nat} (hget : h.getQS i = none) :
    cloneQS h i = (h, i) := by
  unfold cloneQS
  rw [hget]

theorem cloneQS_WF {h : Heap} {j : Nat} (hwf : h.WF) : (cloneQS h j).1.WF := by
  cases hj : h.getQS j with
  | none => rw [cloneQS_none hj]; exact hwf
  | some qj =>
    rw [cloneQS_eq hj]
    refine ⟨?_, ?_, ?_⟩
    · intro p hp
      rcases List.mem_cons.mp hp with hp | hp
      · subst hp; exact Nat.lt_succ_self _
      · exact Nat.lt_trans (hwf.qs_lt p hp) (Nat.lt_succ_self _)
    · intro p hp
      exact hwf.meta_lt p hp
    · intro p hp r hr
      rcases List.mem_cons.mp hp with hp | hp
      · subst hp
        exact hwf.ref_lt _ (mem_of_assoc_eq_some hj) r hr
      · exact hwf.ref_lt p hp r hr

theorem getQS_cloneQS_self {h : Heap} {j : Nat} {qj : PyQuerySet}
    (hj : h.getQS j = some qj) :
    Heap.getQS (cloneQS h j).1 (cloneQS h j).2
      = some { meta_ref := qj.meta_ref, filtering := qj.filtering,
               has_been_filtered := false } := by
  rw [cloneQS_eq hj]
  exact assoc_cons_self _ _ _

theorem getQS_cloneQS_other {h : Heap} (j : Nat) {k : Nat} {qk : PyQuerySet}
    (hwf : h.WF) (hk : h.getQS k = some qk) :
    Heap.getQS (cloneQS h j).1 k = some qk := by
  cases hj : h.getQS j with
  | none => rw [cloneQS_none hj]; exact hk
  | some qj =>
    rw [cloneQS_eq hj]
    have hne : h.nextQS ≠ k := Ne.symm (Nat.ne_of_lt (getQS_lt hwf hk))
    show assoc _ k = _
    rw [assoc_cons_ne _ _ hne]
    exact hk

theorem readMeta_clone_shares {h : Heap} {j : Nat} {qj : PyQuerySet}
    (hwf : h.WF) (hj : h.getQS j = some qj) :
    Heap.readMeta (cloneQS h j).1 (cloneQS h j).2
      = Heap.readMeta (cloneQS h j).1 j := by
  unfold Heap.readMeta
  rw [getQS_cloneQS_self hj, getQS_cloneQS_other j hwf hj]

theorem readMeta_cloneQS {h : Heap} (j : Nat) {k : Nat} {qk : PyQuerySet}
    (hwf : h.WF) (hk : h.getQS k = some qk) :
    Heap.readMeta (cloneQS h j).1 k = h.readMeta k := by
  unfold Heap.readMeta
  rw [getQS_cloneQS_other j hwf hk, hk]
  cases hj : h.getQS j with
  | none => rw [cloneQS_none hj]
  | some qj =>
    rw [cloneQS_eq hj]

theorem readMeta_unrestrictedRef {h : Heap} (j : Nat) {k : Nat} {qk : PyQuerySet}
    (hwf : h.WF) (hk : h.getQS k = some qk) :
    Heap.readMeta (unrestrictedRef h j).1 k = h.readMeta k := by
  cases hj : h.getQS j with
  | none =>
    unfold unrestrictedRef
    rw [cloneQS_none hj, hj]
  | some qj =>
    unfold unrestrictedRef
    rw [getQS_cloneQS_self hj, cloneQS_eq hj]
    have hkq : k < h.nextQS := getQS_lt hwf hk
    have hne1 : h.nextQS ≠ k := Ne.symm (Nat.ne_of_lt hkq)
    have hk2 : assoc h.qsObjs k = some qk := hk
    unfold Heap.readMeta Heap.getQS Heap.setQS allocMeta
    simp only [assoc_cons_ne _ _ hne1, hk2]
    cases hmr : qk.meta_ref with
    | none => rfl
    | some r =>
      have hrlt : r < h.nextMeta := getQS_ref_lt hwf hk hmr
      have hne2 : h.nextMeta ≠ r := Ne.symm (Nat.ne_of_lt hrlt)
      simp only [assoc_cons_ne _ _ hne2]

theorem readMeta_accessibleByUserRef_other {h : Heap} {j : Nat} (uid : Nat)
    {k : Nat} {qk : PyQuerySet}
    (hwf : h.WF) (hk : h.getQS k = some qk) (hjk : j ≠ k) :
    Heap.readMeta (accessibleByUserRef h j uid).1 k = h.readMeta k := by
  cases hj : h.getQS j with
  | none =>
    unfold accessibleByUserRef
    rw [hj]
  | some qj =>
    unfold accessibleByUserRef
    rw [hj]
    have hk2 : assoc h.qsObjs k = some qk := hk
    unfold Heap.readMeta Heap.getQS Heap.setQS allocMeta
    simp only [assoc_cons_ne _ _ hjk, hk2]
    cases hmr : qk.meta_ref with
    | none => rfl
    | some r =>
      have hrlt : r < h.nextMeta := getQS_ref_lt hwf hk hmr
      have hne2 : h.nextMeta ≠ r := Ne.symm (Nat.ne_of_lt hrlt)
      simp only [assoc_cons_ne _ _ hne2]

theorem readMeta_accessibleByUserRef_self {h : Heap} {i uid : Nat} {qi : PyQuerySet}
    (hi : h.getQS i = some qi) :
    Heap.readMeta (accessibleByUserRef h i uid).1 i
      = some { user := some uid, unrestricted := false } := by
  unfold accessibleByUserRef
  rw [hi]
  unfold Heap.readMeta Heap.getQS Heap.setQS allocMeta
  simp [assoc_cons_self]

theorem accessibleByUserRef_snd (h : Heap) (i uid : Nat) :
    (accessibleByUserRef h i uid).2 = i := by
  unfold accessibleByUserRef
  cases hi : h.getQS i with
  | none => rfl
  | some qi => rfl

end RefHeap

namespace DjangoGroupAccess

theorem qOr_qEmpty_left (b : QCond) : qOr qEmpty b = b := rfl

theorem qOr_qEmpty_right (a : QCond) : qOr a qEmpty = a := by
  cases a <;> rfl

theorem qMatches_qOr_pred_pred (p q : Rec → Bool) (r : Rec) :
    qMatches (qOr (qPred p) (qPred q)) r = (p r || q r) := rfl

theorem applyRules_subset {base : List Rec} {q : QCond} {r : Rec}
    (h : r ∈ applyRules base q) : r ∈ base := by
  unfold applyRules at h
  exact (List.mem_filter.mp h).1

theorem mem_applyRules {base : List Rec} {q : QCond} {r : Rec}
    (hr : r ∈ base) (hm : qMatches q r = true) : r ∈ applyRules base q := by
  unfold applyRules
  refine List.mem_filter.mpr ⟨hr, ?_⟩
  have hmem : r ∈ base.filter (fun r => qMatches q r) := List.mem_filter.mpr ⟨hr, hm⟩
  have hpk : r.pk ∈ (base.filter (fun r => qMatches q r)).map Rec.pk :=
    List.mem_map_of_mem Rec.pk hmem
  simpa using hpk

theorem applyRules_eq_filter {base : List Rec} {q : QCond}
    (h : (base.map Rec.pk).Nodup) :
    applyRules base q = base.filter (fun r => qMatches q r) := by
  unfold applyRules
  apply List.filter_congr
  intro r hr
  cases hq : qMatches q r with
  | true =>
    have hmem : r ∈ base.filter (fun r => qMatches q r) := List.mem_filter.mpr ⟨hr, hq⟩
    have hpk : r.pk ∈ (base.filter (fun r => qMatches q r)).map Rec.pk :=
      List.mem_map_of_mem Rec.pk hmem
    simpa using hpk
  | false =>
    by_contra hc
    rw [Bool.not_eq_false] at hc
    have hpk : r.pk ∈ (base.filter (fun r => qMatches q r)).map Rec.pk := by
      simpa using hc
    obtain ⟨r2, hr2, hpkeq⟩ := List.mem_map.mp hpk
    have hr2b : r2 ∈ base := (List.mem_filter.mp hr2).1
    have hr2q : qMatches q r2 = true := (List.mem_filter.mp hr2).2
    have heq : r2 = r := List.inj_on_of_nodup_map h hr2b hr hpkeq
    rw [heq, hq] at hr2q
    exact Bool.false_ne_true hr2q

theorem applyRules_qEmpty (base : List Rec) : applyRules base qEmpty = base := by
  unfold applyRules
  have h1 : base.filter (fun r => qMatches qEmpty r) = base :=
    List.filter_eq_self.mpr (fun r _ => rfl)
  rw [h1]
  apply List.filter_eq_self.mpr
  intro r hr
  simpa using List.mem_map_of_mem Rec.pk hr

theorem materialize_eq_base_of_marked (st : Settings) (amb : Option User)
    (db : List AccessGroup) {qs : QuerySet}
    (h : qs.has_been_filtered = true) :
    materialize st amb db qs = qs.base := by
  simp [materialize, db_wrapper, h]

theorem materialize_eq_base_of_unregistered (st : Settings) (amb : Option User)
    (db : List AccessGroup) {qs : QuerySet}
    (h : qs.cfg.is_registered = false) :
    materialize st amb db qs = qs.base := by
  cases hf : qs.has_been_filtered with
  | true => simp [materialize, db_wrapper, hf]
  | false => simp [materialize, db_wrapper, filter_for_access_control, h, hf]

theorem materialize_eq_base_of_filtering (st : Settings) (amb : Option User)
    (db : List AccessGroup) {qs : QuerySet}
    (h : qs.filtering = true) :
    materialize st amb db qs = qs.base := by
  cases hf : qs.has_been_filtered with
  | true => simp [materialize, db_wrapper, hf]
  | false =>
    cases hr : qs.cfg.is_registered with
    | true => simp [materialize, db_wrapper, filter_for_access_control, h, hf, hr]
    | false => simp [materialize, db_wrapper, filter_for_access_control, hf, hr]

theorem materialize_eq_base_of_no_user (st : Settings) (amb : Option User)
    (db : List AccessGroup) {qs : QuerySet}
    (h : access_control_user amb qs = none) :
    materialize st amb db qs = qs.base := by
  cases hf : qs.has_been_filtered with
  | true => simp [materialize, db_wrapper, hf]
  | false =>
    cases hr : qs.cfg.is_registered with
    | false => simp [materialize, db_wrapper, filter_for_access_control, hf, hr]
    | true =>
      cases hg : qs.filtering with
      | true => simp [materialize, db_wrapper, filter_for_access_control, hf, hr, hg]
      | false => simp [materialize, db_wrapper, filter_for_access_control, hf, hr, hg, h]

theorem materialize_anon_empty (st : Settings) (amb : Option User)
    (db : List AccessGroup) {qs : QuerySet} {u : User}
    (hreg : qs.cfg.is_registered = true) (hfil : qs.filtering = false)
    (hmark : qs.has_been_filtered = false)
    (hu : access_control_user amb qs = some u)
    (hanon : u.is_authenticated = false)
    (hpub : st.unshared_records_are_public = false) :
    materialize st amb db qs = [] := by
  simp [materialize, db_wrapper, filter_for_access_control, hreg, hfil, hmark,
    hu, hanon, hpub, noneQuerySet]

theorem materialize_eq_applyRules (st : Settings) (amb : Option User)
    (db : List AccessGroup) {qs : QuerySet} {u : User}
    (hreg : qs.cfg.is_registered = true) (hfil : qs.filtering = false)
    (hmark : qs.has_been_filtered = false)
    (hu : access_control_user amb qs = some u)
    (hok : u.is_authenticated = true ∨ st.unshared_records_are_public = true) :
    materialize st amb db qs =
      applyRules qs.base (get_accessible_by_user_filter_rules qs.cfg st db u) := by
  rcases hok with hok | hok
  · simp [materialize, db_wrapper, filter_for_access_control, hreg, hfil, hmark, hu, hok]
  · cases ha : u.is_authenticated with
    | true =>
      simp [materialize, db_wrapper, filter_for_access_control, hreg, hfil, hmark, hu, ha]
    | false =>
      simp [materialize, db_wrapper, filter_for_access_control, hreg, hfil, hmark, hu, ha, hok]

theorem materialize_meta_cases (st : Settings) (amb : Option User)
    (db : List AccessGroup) (qs : QuerySet) (u : User) (bb : Bool) :
    materialize st amb db
        { qs with meta := some { user := some u, unrestricted := bb } } =
      (if qs.has_been_filtered then qs.base
       else if !qs.cfg.is_registered then qs.base
       else if qs.filtering then qs.base
       else if !u.is_authenticated && !st.unshared_records_are_public then []
       else applyRules qs.base (get_accessible_by_user_filter_rules qs.cfg st db u)) := by
  cases hf : qs.has_been_filtered with
  | true => simp [hf, materialize, db_wrapper]
  | false =>
    cases hr : qs.cfg.is_registered with
    | false => simp [hf, hr, materialize, db_wrapper, filter_for_access_control]
    | true =>
      cases hg : qs.filtering with
      | true => simp [hf, hr, hg, materialize, db_wrapper, filter_for_access_control]
      | false =>
        cases ha : u.is_authenticated with
        | true =>
          simp [hf, hr, hg, ha, materialize, db_wrapper, filter_for_access_control,
            access_control_user]
        | false =>
          cases hp : st.unshared_records_are_public with
          | true =>
            simp [hf, hr, hg, ha, hp, materialize, db_wrapper,
              filter_for_access_control, access_control_user]
          | false =>
            simp [hf, hr, hg, ha, hp, materialize, db_wrapper,
              filter_for_access_control, access_control_user, noneQuerySet]

theorem materialize_accessible_cases (st : Settings) (amb : Option User)
    (db : List AccessGroup) (qs : QuerySet) (u : User) :
    materialize st amb db (accessible_by_user qs u) =
      (if qs.has_been_filtered then qs.base
       else if !qs.cfg.is_registered then qs.base
       else if qs.filtering then qs.base
       else if !u.is_authenticated && !st.unshared_records_are_public then []
       else applyRules qs.base (get_accessible_by_user_filter_rules qs.cfg st db u)) :=
  materialize_meta_cases st amb db qs u false

theorem access_control_user_unrestricted (amb : Option User) (qs : QuerySet) :
    access_control_user amb (unrestricted qs) = none := rfl

theorem access_control_user_accessible (amb : Option User) (qs : QuerySet) (u : User) :
    access_control_user amb (accessible_by_user qs u) = some u := rfl

theorem materialize_unrestricted (st : Settings) (amb : Option User)
    (db : List AccessGroup) (qs : QuerySet) :
    materialize st amb db (unrestricted qs) = qs.base :=
  materialize_eq_base_of_no_user st amb db (access_control_user_unrestricted amb qs)

theorem filter_fst_base_subset (st : Settings) (amb : Option User)
    (db : List AccessGroup) (qs : QuerySet) {r : Rec}
    (h : r ∈ (filter_for_access_control st amb db qs).1.base) : r ∈ qs.base := by
  unfold filter_for_access_control at h
  cases hr : qs.cfg.is_registered with
  | false => simpa [hr] using h
  | true =>
    cases hg : qs.filtering with
    | true => simpa [hr, hg] using h
    | false =>
      cases hu : access_control_user amb qs with
      | none => simpa [hr, hg, hu] using h
      | some u =>
        by_cases hb : (!u.is_authenticated && !st.unshared_records_are_public) = true
        · simp [hr, hg, hu, hb, noneQuerySet] at h
        · simp only [hr, hg, hu, hb] at h
          simp only [Bool.not_true, Bool.false_eq_true, if_false, if_neg hb] at h
          exact applyRules_subset h

theorem materialize_subset (st : Settings) (amb : Option User)
    (db : List AccessGroup) (qs : QuerySet) {r : Rec}
    (h : r ∈ materialize st amb db qs) : r ∈ qs.base := by
  unfold materialize db_wrapper at h
  cases hf : qs.has_been_filtered with
  | true => simpa [hf] using h
  | false =>
    have hq := @filter_fst_base_subset st amb db qs r
    rcases hfc : filter_for_access_control st amb db qs with ⟨q, b⟩
    rw [hfc] at hq
    cases b with
    | true =>
      simp [hf, hfc] at h
      exact hq h
    | false =>
      simp [hf, hfc] at h
      exact hq h

/-- C1: for every registered entity type, every query over it, and every
actor, the set of records (by record identity) returned by executing
`unrestricted(query)` is a superset of the set returned by executing
`accessibleBy(actor, query)`. -/
theorem C1_unrestricted_superset (st : Settings) (amb : Option User)
    (db : List AccessGroup) (qs : QuerySet) (u : User) :
    ∀ r ∈ materialize st amb db (accessible_by_user qs u),
      r.pk ∈ (materialize st amb db (unrestricted qs)).map Rec.pk := by
  intro r hr
  rw [materialize_unrestricted]
  exact List.mem_map_of_mem Rec.pk
    (materialize_subset st amb db (accessible_by_user qs u) hr)

/-- Witness for C1 at a concrete input: the shared record is returned for
Alice by the filtered query, and its primary key occurs in the
unrestricted result. -/
theorem C1_witness :
    sampleRecShared ∈
      materialize stDefaults none sampleDb (accessible_by_user sampleQSDirect sampleAlice) ∧
    Rec.pk sampleRecShared ∈
      (materialize stDefaults none sampleDb (unrestricted sampleQSDirect)).map Rec.pk :=
  ⟨by decide,
   C1_unrestricted_superset stDefaults none sampleDb sampleQSDirect sampleAlice
     sampleRecShared (by decide)⟩

/-- C2: for every registered entity type and every authenticated actor
that is a superuser or belongs to at least one access group with
`supergroup = true`, the rule evaluator produces the match-everything
filter (the empty `Q()`), and executing the query tagged for that actor
returns every record of the query.  The configuration covers delegated
types as well: the hook list is the resolved control-relation target
model's hook list there. -/
theorem C2_privileged_sees_all (st : Settings) (amb : Option User)
    (db : List AccessGroup) (qs : QuerySet) (u : User)
    (hauth : u.is_authenticated = true)
    (hpriv : u.is_superuser = true ∨
      ∃ g ∈ db, g.members.contains u.pk = true ∧ g.supergroup = true) :
    get_accessible_by_user_filter_rules qs.cfg st db u = qEmpty ∧
    materialize st amb db (accessible_by_user qs u) = qs.base := by
  have hph : privilegedHit qs.cfg db u = true := by
    unfold privilegedHit
    rcases hpriv with hsu | ⟨g, hg, hmemg, hsg⟩
    · simp [hauth, is_superuser_hook, hsu]
    · have hsgh : supergroupHit db u = true := by
        have hg1 : g ∈ (db.filter (fun g => g.members.contains u.pk)).filter
            (fun g => g.supergroup) :=
          List.mem_filter.mpr ⟨List.mem_filter.mpr ⟨hg, hmemg⟩, hsg⟩
        have hpos : 0 < ((db.filter (fun g => g.members.contains u.pk)).filter
            (fun g => g.supergroup)).length :=
          List.length_pos_of_mem hg1
        unfold supergroupHit userGroups
        exact bne_iff_ne.mpr (Nat.pos_iff_ne_zero.mp hpos)
      simp [hauth, hsgh]
  have hrules : get_accessible_by_user_filter_rules qs.cfg st db u = qEmpty := by
    simp [get_accessible_by_user_filter_rules, hph]
  refine ⟨hrules, ?_⟩
  cases hm : qs.has_been_filtered with
  | true => exact materialize_eq_base_of_marked st amb db hm
  | false =>
    cases hr : qs.cfg.is_registered with
    | false => exact materialize_eq_base_of_unregistered st amb db hr
    | true =>
      cases hg : qs.filtering with
      | true => exact materialize_eq_base_of_filtering st amb db hg
      | false =>
        rw [@materialize_eq_applyRules st amb db (accessible_by_user qs u) u
          hr hg hm rfl (Or.inl hauth)]
        rw [show (accessible_by_user qs u).cfg = qs.cfg from rfl, hrules]
        exact applyRules_qEmpty _

/-- Witness for C2 at a concrete input: a superuser queries the direct
sample queryset and gets every record. -/
theorem C2_witness :
    User.is_authenticated sampleSuperuser = true ∧
    (get_accessible_by_user_filter_rules sampleQSDirect.cfg stDefaults sampleDb
        sampleSuperuser = qEmpty ∧
      materialize stDefaults none sampleDb
        (accessible_by_user sampleQSDirect sampleSuperuser) = sampleQSDirect.base) :=
  ⟨by decide,
   C2_privileged_sees_all stDefaults none sampleDb sampleQSDirect sampleSuperuser
     (by decide) (Or.inl (by decide))⟩

/-- C3: for every registered entity type and every query for which an
actor was determined, if that actor is unauthenticated and
`DGA_UNSHARED_RECORDS_ARE_PUBLIC` is off, executing the query returns the
empty result set; if the setting is on, an anonymous actor sees exactly
the records with no access groups — for delegated types the records whose
related record has no access groups, under the left-outer-join semantics
of the `isnull` lookup (a null relation also matches). -/
theorem C3_anonymous_actor (st : Settings) (amb : Option User)
    (db : List AccessGroup) (qs : QuerySet) (u : User)
    (hreg : qs.cfg.is_registered = true) (hfil : qs.filtering = false)
    (hmark : qs.has_been_filtered = false)
    (hdet : access_control_user amb qs = some u)
    (hanon : u.is_authenticated = false)
    (hnodup : (qs.base.map Rec.pk).Nodup) :
    (st.unshared_records_are_public = false → materialize st amb db qs = []) ∧
    (st.unshared_records_are_public = true →
      materialize st amb db qs = qs.base.filter (fun r =>
        if qs.cfg.has_control_relation then relatedAccessGroupsIsNull r
        else r.access_groups.isEmpty)) := by
  constructor
  · intro hpub
    exact materialize_anon_empty st amb db hreg hfil hmark hdet hanon hpub
  · intro hpub
    rw [materialize_eq_applyRules st amb db hreg hfil hmark hdet (Or.inr hpub),
      applyRules_eq_filter hnodup]
    apply List.filter_congr
    intro r hr
    have hph : privilegedHit qs.cfg db u = false := by
      simp [privilegedHit, hanon]
    cases hcr : qs.cfg.has_control_relation with
    | true =>
      cases hnr : st.no_related_record_visibility with
      | true =>
        simp only [get_accessible_by_user_filter_rules, hph, hanon, hpub, hcr, hnr,
          Bool.false_eq_true, if_false, if_true, qOr, qEmpty, qPred, qMatches]
        cases hrel : r.related <;>
          simp [relatedAccessGroupsIsNull, hrel, qMatches, qOr, qPred]
      | false =>
        simp [get_accessible_by_user_filter_rules, hph, hanon, hpub, hcr, hnr,
          qOr, qEmpty, qPred, qMatches]
    | false =>
      simp [get_accessible_by_user_filter_rules, hph, hanon, hpub, hcr,
        qOr, qEmpty, qPred, qMatches]

/-- Witness for C3 at a concrete input: the anonymous actor bound to the
direct sample queryset under default settings. -/
theorem C3_witness :
    (stDefaults.unshared_records_are_public = false →
      materialize stDefaults none sampleDb
        (accessible_by_user sampleQSDirect sampleAnon) = []) ∧
    (stDefaults.unshared_records_are_public = true →
      materialize stDefaults none sampleDb
          (accessible_by_user sampleQSDirect sampleAnon)
        = (accessible_by_user sampleQSDirect sampleAnon).base.filter (fun r =>
            if (accessible_by_user sampleQSDirect sampleAnon).cfg.has_control_relation
            then relatedAccessGroupsIsNull r
            else r.access_groups.isEmpty)) :=
  C3_anonymous_actor stDefaults none sampleDb
    (accessible_by_user sampleQSDirect sampleAnon) sampleAnon
    (by decide) (by decide) (by decide) (by decide) (by decide) (by decide)

/-- C4: for a directly-controlled registered type with an owner field, a
record with an empty access-group set is visible via `accessibleBy` to its
authenticated owner under every setting combination, and to a different
non-privileged authenticated actor exactly when
`DGA_UNSHARED_RECORDS_ARE_PUBLIC` is on. -/
theorem C4_unshared_record_visibility (st : Settings) (amb : Option User)
    (db : List AccessGroup) (qs : QuerySet) (u v : User) (r : Rec)
    (hdir : qs.cfg.has_control_relation = false)
    (hown : qs.cfg.has_owner = true)
    (hreg : qs.cfg.is_registered = true) (hfil : qs.filtering = false)
    (hmark : qs.has_been_filtered = false)
    (hnodup : (qs.base.map Rec.pk).Nodup)
    (hmem : r ∈ qs.base) (hempty : r.access_groups = [])
    (huauth : u.is_authenticated = true) (huown : r.owner = some u.pk)
    (hvauth : v.is_authenticated = true) (hvsu : v.is_superuser = false)
    (hhooks : qs.cfg.hooks = []) (hvsg : supergroupHit db v = false)
    (hvown : r.owner ≠ some v.pk) :
    r ∈ materialize st amb db (accessible_by_user qs u) ∧
    (r ∈ materialize st amb db (accessible_by_user qs v) ↔
      st.unshared_records_are_public = true) := by
  constructor
  · rw [materialize_accessible_cases st amb db qs u]
    simp only [hreg, hfil, hmark, huauth, Bool.not_true, Bool.false_and,
      Bool.false_eq_true, if_false]
    apply mem_applyRules hmem
    cases hph : privilegedHit qs.cfg db u with
    | true => simp [get_accessible_by_user_filter_rules, hph, qEmpty, qMatches]
    | false =>
      cases hp : st.unshared_records_are_public with
      | true =>
        simp [get_accessible_by_user_filter_rules, hph, hdir, huauth, hown, hp,
          qOr, qPred, qEmpty, qMatches, huown]
      | false =>
        simp [get_accessible_by_user_filter_rules, hph, hdir, huauth, hown, hp,
          qOr, qPred, qEmpty, qMatches, huown]
  · have hph : privilegedHit qs.cfg db v = false := by
      simp [privilegedHit, hvauth, hhooks, is_superuser_hook, hvsu, hvsg]
    have hvbeq : (r.owner == some v.pk) = false := beq_eq_false_iff_ne.mpr hvown
    rw [materialize_accessible_cases st amb db qs v]
    simp only [hreg, hfil, hmark, hvauth, Bool.not_true, Bool.false_and,
      Bool.false_eq_true, if_false]
    rw [applyRules_eq_filter hnodup, List.mem_filter]
    cases hp : st.unshared_records_are_public with
    | true =>
      simp [get_accessible_by_user_filter_rules, hph, hdir, hvauth, hown, hp,
        qOr, qPred, qEmpty, qMatches, hempty, hvbeq, hmem]
    | false =>
      simp [get_accessible_by_user_filter_rules, hph, hdir, hvauth, hown, hp,
        qOr, qPred, qEmpty, qMatches, hempty, hvbeq]

/-- Witness for C4 at a concrete input: the unshared sample record is
owned by Bob; Bob sees it under default settings while Alice does not. -/
theorem C4_witness :
    sampleRecUnshared ∈ materialize stDefaults none sampleDb
      (accessible_by_user sampleQSDirect sampleBob) ∧
    (sampleRecUnshared ∈ materialize stDefaults none sampleDb
        (accessible_by_user sampleQSDirect sampleAlice) ↔
      stDefaults.unshared_records_are_public = true) :=
  C4_unshared_record_visibility stDefaults none sampleDb sampleQSDirect
    sampleBob sampleAlice sampleRecUnshared
    (by decide) (by decide) (by decide) (by decide) (by decide) (by decide)
    (by decide) (by decide) (by decide) (by decide) (by decide) (by decide)
    rfl (by decide) (by decide)

/-- C5 counterexample: with `DGA_NO_RELATED_RECORD_VISIBILITY` set to
false but `DGA_UNSHARED_RECORDS_ARE_PUBLIC` on, a delegated record whose
relation is null is still visible to a non-privileged authenticated actor
(the public-records clause spans the relation with a left outer join and a
null relation matches it), so the claimed unconditional invisibility under
the false setting fails at this input. -/
theorem C5_counterexample :
    sampleAlice.is_superuser = false ∧
    supergroupHit sampleDb sampleAlice = false ∧
    stPublicOnNoRelOff.no_related_record_visibility = false ∧
    sampleRecNullRel ∈ materialize stPublicOnNoRelOff none sampleDb
      (accessible_by_user sampleQSDelegated sampleAlice) := by
  decide

/-- C5 amended: for a delegated registered type, a record whose relation
is null and a non-privileged actor: an authenticated actor sees the record
exactly when `DGA_NO_RELATED_RECORD_VISIBILITY` is true (its default) or
`DGA_UNSHARED_RECORDS_ARE_PUBLIC` is on — so turning the first setting off
hides the record only while the public-records setting is also off, since
the related-access-groups-isnull clause also matches null relations; an
anonymous actor sees the record exactly when
`DGA_UNSHARED_RECORDS_ARE_PUBLIC` is on, independent of the
no-related-record-visibility setting, because with it off the result set
is forced empty before the rules are consulted. -/
theorem C5_amended_null_relation (st : Settings) (amb : Option User)
    (db : List AccessGroup) (qs : QuerySet) (u : User) (r : Rec)
    (hdel : qs.cfg.has_control_relation = true)
    (hreg : qs.cfg.is_registered = true) (hfil : qs.filtering = false)
    (hmark : qs.has_been_filtered = false)
    (hnodup : (qs.base.map Rec.pk).Nodup)
    (hmem : r ∈ qs.base) (hrel : r.related = none)
    (hsu : u.is_superuser = false)
    (hhooks : qs.cfg.hooks = []) (hsg : supergroupHit db u = false) :
    (u.is_authenticated = true →
      (r ∈ materialize st amb db (accessible_by_user qs u) ↔
        (st.no_related_record_visibility = true ∨
          st.unshared_records_are_public = true))) ∧
    (u.is_authenticated = false →
      (r ∈ materialize st amb db (accessible_by_user qs u) ↔
        st.unshared_records_are_public = true)) := by
  have hph : privilegedHit qs.cfg db u = false := by
    simp [privilegedHit, hhooks, is_superuser_hook, hsu, hsg]
  constructor
  · intro hauth
    have hcases := materialize_accessible_cases st amb db qs u
    rw [hreg, hfil, hmark, hauth] at hcases
    simp only [Bool.not_true, Bool.false_and, Bool.not_false, Bool.false_eq_true,
      if_false] at hcases
    rw [hcases, applyRules_eq_filter hnodup, List.mem_filter]
    cases hro : qs.cfg.related_has_owner with
    | true =>
      cases hnr : st.no_related_record_visibility <;>
        cases hp : st.unshared_records_are_public <;>
          simp [get_accessible_by_user_filter_rules, hph, hdel, hauth, hro, hnr, hp,
            qOr, qPred, qEmpty, qMatches, hrel, relatedInUserGroups,
            relatedAccessGroupsIsNull, hmem]
    | false =>
      cases hnr : st.no_related_record_visibility <;>
        cases hp : st.unshared_records_are_public <;>
          simp [get_accessible_by_user_filter_rules, hph, hdel, hauth, hro, hnr, hp,
            qOr, qPred, qEmpty, qMatches, hrel, relatedInUserGroups,
            relatedAccessGroupsIsNull, hmem]
  · intro hanon
    cases hp : st.unshared_records_are_public with
    | false =>
      rw [@materialize_anon_empty st amb db (accessible_by_user qs u) u
        hreg hfil hmark rfl hanon hp]
      simp
    | true =>
      have hcases := materialize_accessible_cases st amb db qs u
      rw [hreg, hfil, hmark, hanon, hp] at hcases
      simp only [Bool.not_true, Bool.not_false, Bool.true_and, Bool.and_false,
        Bool.false_eq_true, if_false] at hcases
      rw [hcases, applyRules_eq_filter hnodup, List.mem_filter]
      cases hro : qs.cfg.related_has_owner with
      | true =>
        cases hnr : st.no_related_record_visibility <;>
          simp [get_accessible_by_user_filter_rules, hph, hdel, hanon, hro, hnr, hp,
            qOr, qPred, qEmpty, qMatches, hrel, relatedAccessGroupsIsNull, hmem]
      | false =>
        cases hnr : st.no_related_record_visibility <;>
          simp [get_accessible_by_user_filter_rules, hph, hdel, hanon, hro, hnr, hp,
            qOr, qPred, qEmpty, qMatches, hrel, relatedAccessGroupsIsNull, hmem]

/-- Witness for the amended C5 at a concrete input: Alice (authenticated,
non-privileged) and the null-relation delegated record under default
settings. -/
theorem C5_amended_witness :
    (sampleAlice.is_authenticated = true →
      (sampleRecNullRel ∈ materialize stDefaults none sampleDb
          (accessible_by_user sampleQSDelegated sampleAlice) ↔
        (stDefaults.no_related_record_visibility = true ∨
          stDefaults.unshared_records_are_public = true))) ∧
    (sampleAlice.is_authenticated = false →
      (sampleRecNullRel ∈ materialize stDefaults none sampleDb
          (accessible_by_user sampleQSDelegated sampleAlice) ↔
        stDefaults.unshared_records_are_public = true)) :=
  C5_amended_null_relation stDefaults none sampleDb sampleQSDelegated
    sampleAlice sampleRecNullRel
    (by decide) (by decide) (by decide) (by decide) (by decide) (by decide)
    (by decide) (by decide) rfl (by decide)

/-- C6: the existence-check operation, wrapped with
`used_in_unique_check = True`, applies no access-control filtering while a
uniqueness validation pass is on the call stack (it operates on all
records of the queryset and leaves it untouched), and outside a
uniqueness validation pass it behaves exactly like every other wrapped
record-producing operation. -/
theorem C6_exists_unique_check (st : Settings) (amb : Option User)
    (db : List AccessGroup) (qs : QuerySet) :
    existsCheck true st amb db qs = (qs.base, qs) ∧
    (∀ b : Bool, existsCheck false st amb db qs = db_wrapper false b st amb db qs) :=
  ⟨rfl, fun _ => rfl⟩

/-- C7: a query already marked access-control-filtered is passed to the
wrapped operation untouched, and materializing a query twice in a row
(the second time on the receiver state the first call left behind) yields
the identical record list and the identical count both times. -/
theorem C7_filter_at_most_once (st : Settings) (amb : Option User)
    (db : List AccessGroup) (qs qs2 : QuerySet)
    (h : qs.has_been_filtered = true) :
    db_wrapper false false st amb db qs = (qs.base, qs) ∧
    (db_wrapper false false st amb db (db_wrapper false false st amb db qs2).2).1
      = (db_wrapper false false st amb db qs2).1 ∧
    ((db_wrapper false false st amb db (db_wrapper false false st amb db qs2).2).1).length
      = ((db_wrapper false false st amb db qs2).1).length := by
  have hmain :
      (db_wrapper false false st amb db (db_wrapper false false st amb db qs2).2).1
        = (db_wrapper false false st amb db qs2).1 := by
    cases hf : qs2.has_been_filtered with
    | true => simp [db_wrapper, hf]
    | false =>
      rcases hfc : filter_for_access_control st amb db qs2 with ⟨q, b⟩
      cases b with
      | true => simp [db_wrapper, hf, hfc]
      | false => simp [db_wrapper, hf, hfc]
  exact ⟨by simp [db_wrapper, h], hmain, by rw [hmain]⟩

/-- Witness for C7 at a concrete input: a queryset already marked as
filtered passes through unchanged, and double materialization of the
fresh sample queryset is stable. -/
theorem C7_witness :
    db_wrapper false false stDefaults none sampleDb sampleQSMarked
      = (sampleQSMarked.base, sampleQSMarked) ∧
    (db_wrapper false false stDefaults none sampleDb
        (db_wrapper false false stDefaults none sampleDb sampleQSDirect).2).1
      = (db_wrapper false false stDefaults none sampleDb sampleQSDirect).1 ∧
    ((db_wrapper false false stDefaults none sampleDb
        (db_wrapper false false stDefaults none sampleDb sampleQSDirect).2).1).length
      = ((db_wrapper false false stDefaults none sampleDb sampleQSDirect).1).length :=
  C7_filter_at_most_once stDefaults none sampleDb sampleQSMarked sampleQSDirect (by decide)

/-- C10: a query whose metadata has a null actor — in particular every
query produced by `unrestricted()` — executes with no visibility filter
and returns exactly the records of the underlying query even when the
model is auto-filtered and an ambient actor is set, and the metadata's
`unrestricted` boolean never influences the records an execution
produces. -/
theorem C10_null_actor_bypasses (st : Settings) (amb : Option User)
    (db : List AccessGroup) (qs : QuerySet) (uo : Option User) (b b1 b2 : Bool)
    (hmeta : qs.meta = some { user := none, unrestricted := b }) :
    materialize st amb db qs = qs.base ∧
    materialize st amb db { qs with meta := some { user := uo, unrestricted := b1 } }
      = materialize st amb db { qs with meta := some { user := uo, unrestricted := b2 } } ∧
    (∀ qs2 : QuerySet, materialize st amb db (unrestricted qs2) = qs2.base) := by
  refine ⟨?_, ?_, fun qs2 => materialize_unrestricted st amb db qs2⟩
  · apply materialize_eq_base_of_no_user
    simp [access_control_user, hmeta]
  · cases huo : uo with
    | none =>
      rw [materialize_eq_base_of_no_user st amb db (by simp [access_control_user]),
        materialize_eq_base_of_no_user st amb db (by simp [access_control_user])]
    | some u =>
      rw [materialize_meta_cases st amb db qs u b1,
        materialize_meta_cases st amb db qs u b2]

theorem cexHeap0_WF : cexHeap0.WF := by
  refine ⟨?_, ?_, ?_⟩
  · intro p hp
    simp [cexHeap0] at hp
    subst hp
    decide
  · intro p hp
    simp [cexHeap0] at hp
    subst hp
    decide
  · intro p hp r hr
    simp [cexHeap0] at hp
    subst hp
    simp at hr
    subst hr
    decide

/-- C8 counterexample: at the concrete heap, cloning the marked queryset
does not copy the has-been-filtered flag (the clone starts unmarked while
the original is marked), and mutating the shared metadata dict through the
clone changes the metadata the original observes — refuting the by-value
copying of the metadata and of the filtered flag stated by the claim. -/
theorem C8_counterexample :
    (RefHeap.Heap.getQS (RefHeap.cloneQS cexHeap0 0).1
        (RefHeap.cloneQS cexHeap0 0).2).map RefHeap.PyQuerySet.has_been_filtered
      = some false ∧
    (RefHeap.Heap.getQS cexHeap0 0).map RefHeap.PyQuerySet.has_been_filtered
      = some true ∧
    RefHeap.Heap.readMeta
        (RefHeap.setMetaUser (RefHeap.cloneQS cexHeap0 0).1
          (RefHeap.cloneQS cexHeap0 0).2 (some 9)) 0
      ≠ RefHeap.Heap.readMeta (RefHeap.cloneQS cexHeap0 0).1 0 := by
  decide

/-- C8 amended: cloning a query copies the metadata reference — the clone
and the original share one metadata dict — together with the
currently-filtering flag, while the has-been-filtered flag is not copied
(the clone starts unmarked); because the library's own metadata-changing
operations install a fresh dict instead of mutating the shared one,
applying unrestricted or accessible_by_user to the clone leaves the
metadata the original observes unchanged; a query object carries at most
one metadata reference. -/
theorem C8_amended_clone_metadata (h0 : RefHeap.Heap) (i uid : Nat)
    (q : RefHeap.PyQuerySet)
    (hwf : h0.WF) (hget : h0.getQS i = some q) :
    RefHeap.Heap.getQS (RefHeap.cloneQS h0 i).1 (RefHeap.cloneQS h0 i).2
      = some { meta_ref := q.meta_ref, filtering := q.filtering,
               has_been_filtered := false } ∧
    RefHeap.Heap.readMeta (RefHeap.cloneQS h0 i).1 (RefHeap.cloneQS h0 i).2
      = RefHeap.Heap.readMeta (RefHeap.cloneQS h0 i).1 i ∧
    RefHeap.Heap.readMeta
        (RefHeap.unrestrictedRef (RefHeap.cloneQS h0 i).1
          (RefHeap.cloneQS h0 i).2).1 i
      = h0.readMeta i ∧
    RefHeap.Heap.readMeta
        (RefHeap.accessibleByUserRef (RefHeap.cloneQS h0 i).1
          (RefHeap.cloneQS h0 i).2 uid).1 i
      = h0.readMeta i := by
  have h1wf : (RefHeap.cloneQS h0 i).1.WF := @RefHeap.cloneQS_WF h0 i hwf
  have hk1 : RefHeap.Heap.getQS (RefHeap.cloneQS h0 i).1 i = some q :=
    RefHeap.getQS_cloneQS_other i hwf hget
  refine ⟨RefHeap.getQS_cloneQS_self hget, RefHeap.readMeta_clone_shares hwf hget,
    ?_, ?_⟩
  · rw [RefHeap.readMeta_unrestrictedRef (RefHeap.cloneQS h0 i).2 h1wf hk1]
    exact RefHeap.readMeta_cloneQS i hwf hget
  · have hsnd : (RefHeap.cloneQS h0 i).2 = h0.nextQS := by
      rw [RefHeap.cloneQS_eq hget]
    have hne : (RefHeap.cloneQS h0 i).2 ≠ i := by
      rw [hsnd]
      exact Ne.symm (Nat.ne_of_lt (RefHeap.getQS_lt hwf hget))
    rw [RefHeap.readMeta_accessibleByUserRef_other uid h1wf hk1 hne]
    exact RefHeap.readMeta_cloneQS i hwf hget

/-- Witness for the amended C8 at the concrete heap. -/
theorem C8_amended_witness :
    RefHeap.Heap.getQS (RefHeap.cloneQS cexHeap0 0).1 (RefHeap.cloneQS cexHeap0 0).2
      = some { meta_ref := some 0, filtering := false, has_been_filtered := false } ∧
    RefHeap.Heap.readMeta (RefHeap.cloneQS cexHeap0 0).1 (RefHeap.cloneQS cexHeap0 0).2
      = RefHeap.Heap.readMeta (RefHeap.cloneQS cexHeap0 0).1 0 ∧
    RefHeap.Heap.readMeta
        (RefHeap.unrestrictedRef (RefHeap.cloneQS cexHeap0 0).1
          (RefHeap.cloneQS cexHeap0 0).2).1 0
      = cexHeap0.readMeta 0 ∧
    RefHeap.Heap.readMeta
        (RefHeap.accessibleByUserRef (RefHeap.cloneQS cexHeap0 0).1
          (RefHeap.cloneQS cexHeap0 0).2 42).1 0
      = cexHeap0.readMeta 0 :=
  C8_amended_clone_metadata cexHeap0 0 42
    { meta_ref := some 0, filtering := false, has_been_filtered := true }
    cexHeap0_WF (by decide)

/-- C9 counterexample: at the concrete heap, accessible_by_user returns
its receiver (object id 0), not a distinct new query object, and the
receiver's observed metadata is changed by the call — refuting the claim
that a new object is returned and the receiver is left unchanged. -/
theorem C9_counterexample :
    (RefHeap.accessibleByUserRef cexHeap0 0 5).2 = 0 ∧
    RefHeap.Heap.readMeta (RefHeap.accessibleByUserRef cexHeap0 0 5).1 0
      ≠ RefHeap.Heap.readMeta cexHeap0 0 := by
  decide

/-- C9 amended: accessible_by_user tags the receiver in place and returns
the receiver itself: the returned object is the receiver, the receiver's
metadata becomes a fresh dict with the given actor and
`unrestricted = false`, and the receiver's record list and filtered state
are untouched — no filtering or execution happens at tagging time, the
filter applies on a later execution. -/
theorem C9_amended_tags_receiver (qs : QuerySet) (u : User)
    (h0 : RefHeap.Heap) (i uid : Nat) (qi : RefHeap.PyQuerySet)
    (hget : h0.getQS i = some qi) :
    (accessible_by_user qs u).base = qs.base ∧
    (accessible_by_user qs u).meta
      = some { user := some u, unrestricted := false } ∧
    (accessible_by_user qs u).has_been_filtered = qs.has_been_filtered ∧
    (RefHeap.accessibleByUserRef h0 i uid).2 = i ∧
    RefHeap.Heap.readMeta (RefHeap.accessibleByUserRef h0 i uid).1 i
      = some { user := some uid, unrestricted := false } :=
  ⟨rfl, rfl, rfl, RefHeap.accessibleByUserRef_snd h0 i uid,
   RefHeap.readMeta_accessibleByUserRef_self hget⟩

/-- Witness for the amended C9 at a concrete input. -/
theorem C9_amended_witness :
    (accessible_by_user sampleQSDirect sampleAlice).base = sampleQSDirect.base ∧
    (accessible_by_user sampleQSDirect sampleAlice).meta
      = some { user := some sampleAlice, unrestricted := false } ∧
    (accessible_by_user sampleQSDirect sampleAlice).has_been_filtered
      = sampleQSDirect.has_been_filtered ∧
    (RefHeap.accessibleByUserRef cexHeap0 0 5).2 = 0 ∧
    RefHeap.Heap.readMeta (RefHeap.accessibleByUserRef cexHeap0 0 5).1 0
      = some { user := some 5, unrestricted := false } :=
  C9_amended_tags_receiver sampleQSDirect sampleAlice cexHeap0 0 5
    { meta_ref := some 0, filtering := false, has_been_filtered := true }
    (by decide)

/-- Witness for C10 at a concrete input: the unrestricted sample queryset
(null metadata actor) returns its full record list even though the model
is auto-filtered and an ambient actor is present. -/
theorem C10_witness :
    (unrestricted sampleQSDirect).meta
      = some { user := none, unrestricted := true } ∧
    (materialize stDefaults (some sampleAlice) sampleDb (unrestricted sampleQSDirect)
        = (unrestricted sampleQSDirect).base ∧
      materialize stDefaults (some sampleAlice) sampleDb
          { unrestricted sampleQSDirect with
            meta := some { user := some sampleAnon, unrestricted := false } }
        = materialize stDefaults (some sampleAlice) sampleDb
            { unrestricted sampleQSDirect with
              meta := some { user := some sampleAnon, unrestricted := true } } ∧
      (∀ qs2 : QuerySet,
        materialize stDefaults (some sampleAlice) sampleDb (unrestricted qs2)
          = qs2.base)) :=
  ⟨by decide,
   C10_null_actor_bypasses stDefaults (some sampleAlice) sampleDb
     (unrestricted sampleQSDirect) (some sampleAnon) true false true (by decide)⟩

end DjangoGroupAccess
